import Mathlib

set_option maxHeartbeats 1000000

/-!
Verification of the nanobot-ts event-bus orchestration core: a shallow
embedding of the message bus (`src/bus/queue.ts`), the session-key
resolution and session trimming (`src/agent/loop.ts`, `src/session/manager.ts`),
the agent tool-calling loop (`AgentLoop.runAgentLoop`), the tool registry
(`src/agent/tools/registry.ts`), the subagent coordinator
(`src/agent/subagent.ts`) and the cron scheduler (`src/cron/service.ts`),
together with theorems about their behaviour.

Conventions of the embedding:
* JavaScript promises/async are modelled by pure state-passing; a waiter of
  the async queue is identified by a `Nat` id drawn from a counter.
* A JavaScript function that can throw is modelled with `Except String`;
  a `try`/`catch` block becomes a `match` on the `Except` value.
* Machine timestamps (`Date.now()` et al.) are modelled as `Int` parameters.
-/

/-- State of `AsyncQueue<T>` (src/bus/queue.ts): a buffer of items and a
FIFO list of registered waiters.  Waiters (resolve callbacks) are modelled
by ids allocated from `nextId`. -/
structure QState (T : Type) where
  queue : List T
  waiters : List Nat
  nextId : Nat
deriving DecidableEq

/-- A fresh `AsyncQueue` as built by `new AsyncQueue()`. -/
def QState.empty (T : Type) : QState T := ⟨[], [], 0⟩

/-- `AsyncQueue.put(item)`: hand the item to the earliest registered waiter
(`waiters.shift()`), returning its id, or buffer the item when no waiter is
registered.  The returned `Option Nat` records which waiter received the
item. -/
def QState.put {T : Type} (s : QState T) (item : T) : QState T × Option Nat :=
  match s.waiters with
  | w :: rest => ({ s with waiters := rest }, some w)
  | [] => ({ s with queue := s.queue ++ [item] }, none)

/-- `AsyncQueue.get()`: return the first buffered item (`queue.shift()`)
immediately, or register a new waiter and suspend (result `none`). -/
def QState.get {T : Type} (s : QState T) : QState T × Option T :=
  match s.queue with
  | x :: rest => ({ s with queue := rest }, some x)
  | [] => ({ s with waiters := s.waiters ++ [s.nextId], nextId := s.nextId + 1 }, none)

/-- `AsyncQueue.getWithTimeout(ms)` at registration time: identical to
`get` — return a buffered item immediately, or push a waiter.  (The timer
is modelled separately by `QState.timeoutFire`.) -/
def QState.getWithTimeout {T : Type} (s : QState T) : QState T × Option T :=
  match s.queue with
  | x :: rest => ({ s with queue := rest }, some x)
  | [] => ({ s with waiters := s.waiters ++ [s.nextId], nextId := s.nextId + 1 }, none)

/-- The timeout handler of `getWithTimeout`: `indexOf` + `splice` removes
the first occurrence of the waiter from the waiter list (a no-op when the
waiter is no longer registered), before rejecting with the timeout error. -/
def QState.timeoutFire {T : Type} (s : QState T) (w : Nat) : QState T :=
  { s with waiters := s.waiters.erase w }

/-- One complete timed-out `getWithTimeout` call: the waiter registered by
the call is removed again by its own timeout handler.  (A call that finds
a buffered item returns immediately and its timer, once fired, removes
nothing.) -/
def QState.timedOutCall {T : Type} (s : QState T) : QState T :=
  QState.timeoutFire (s.getWithTimeout).1 s.nextId

/-- Invariant of `AsyncQueue`: the item buffer and the waiter list are
never both non-empty. -/
def QInv {T : Type} (s : QState T) : Prop := s.queue = [] ∨ s.waiters = []

lemma timedOutCall_empty {T : Type} (k : Nat) :
    QState.timedOutCall (⟨[], [], k⟩ : QState T) = ⟨[], [], k + 1⟩ := by
  simp [QState.timedOutCall, QState.getWithTimeout, QState.timeoutFire, List.erase]

lemma timedOutCall_iterate {T : Type} (n : Nat) :
    QState.timedOutCall^[n] (QState.empty T) = ⟨[], [], n⟩ := by
  induction n with
  | zero => rfl
  | succ n ih =>
      rw [Function.iterate_succ_apply', ih, timedOutCall_empty]

/-- C1: after any sequence of timed-out `consumeWithTimeout` calls on a bus
queue, every waiter has been deregistered, so a message published
immediately afterwards is buffered (not handed to an abandoned waiter) and
is returned to the next consumer of the queue: no published message is
ever lost due to a consumer timing out. -/
theorem bus_no_lost_message_after_timeouts {T : Type} (n : Nat) (m : T) :
    (QState.timedOutCall^[n] (QState.empty T)).queue = [] ∧
    (QState.timedOutCall^[n] (QState.empty T)).waiters = [] ∧
    (((QState.timedOutCall^[n] (QState.empty T)).put m).1.queue = [m]) ∧
    (((QState.timedOutCall^[n] (QState.empty T)).put m).2 = none) ∧
    ((((QState.timedOutCall^[n] (QState.empty T)).put m).1.get).2 = some m) := by
  rw [timedOutCall_iterate]
  simp [QState.put, QState.get]

/-- C10: the buffer/waiter exclusion invariant of `AsyncQueue` is preserved
by `put`, `get`, `getWithTimeout` and the timeout handler; `put` hands an
item to the earliest registered waiter when one exists and buffers it
otherwise, and `get` returns a buffered item immediately when one is
present. -/
theorem asyncQueue_invariant {T : Type} (s : QState T) (m : T) (w : Nat)
    (h : QInv s) :
    QInv (s.put m).1 ∧ QInv (s.get).1 ∧ QInv (s.getWithTimeout).1 ∧
    QInv (s.timeoutFire w) ∧
    (∀ w0 rest, s.waiters = w0 :: rest →
      s.put m = ({ s with waiters := rest }, some w0)) ∧
    (s.waiters = [] → s.put m = ({ s with queue := s.queue ++ [m] }, none)) ∧
    (∀ x xs, s.queue = x :: xs → s.get = ({ s with queue := xs }, some x)) := by
  obtain ⟨q, ws, k⟩ := s
  refine ⟨?_, ?_, ?_, ?_, ?_, ?_, ?_⟩
  · cases ws with
    | nil => simp [QState.put, QInv]
    | cons w0 rest =>
        rcases h with h | h
        · simp [QState.put, QInv, h]
        · simp at h
  · cases q with
    | nil => simp [QState.get, QInv]
    | cons x xs =>
        rcases h with h | h
        · simp at h
        · simp [QState.get, QInv, h]
  · cases q with
    | nil => simp [QState.getWithTimeout, QInv]
    | cons x xs =>
        rcases h with h | h
        · simp at h
        · simp [QState.getWithTimeout, QInv, h]
  · rcases h with h | h
    · simp only at h
      exact Or.inl h
    · simp only at h
      subst h
      simp [QState.timeoutFire, QInv]
  · intro w0 rest hw
    simp only at hw
    subst hw
    simp [QState.put]
  · intro hw
    simp only at hw
    subst hw
    simp [QState.put]
  · intro x xs hq
    simp only at hq
    subst hq
    simp [QState.get]

/-- Witness for C10 at a concrete queue state. -/
theorem asyncQueue_invariant_witness :
    QInv (⟨[], [], 0⟩ : QState Nat) ∧
    (QInv ((⟨[], [], 0⟩ : QState Nat).put 5).1 ∧
     QInv ((⟨[], [], 0⟩ : QState Nat).get).1 ∧
     QInv ((⟨[], [], 0⟩ : QState Nat).getWithTimeout).1 ∧
     QInv ((⟨[], [], 0⟩ : QState Nat).timeoutFire 0) ∧
     (∀ w0 rest, (⟨[], [], 0⟩ : QState Nat).waiters = w0 :: rest →
       (⟨[], [], 0⟩ : QState Nat).put 5 =
         ({ (⟨[], [], 0⟩ : QState Nat) with waiters := rest }, some w0)) ∧
     ((⟨[], [], 0⟩ : QState Nat).waiters = [] →
       (⟨[], [], 0⟩ : QState Nat).put 5 =
         ({ (⟨[], [], 0⟩ : QState Nat) with
             queue := (⟨[], [], 0⟩ : QState Nat).queue ++ [5] }, none)) ∧
     (∀ x xs, (⟨[], [], 0⟩ : QState Nat).queue = x :: xs →
       (⟨[], [], 0⟩ : QState Nat).get =
         ({ (⟨[], [], 0⟩ : QState Nat) with queue := xs }, some x))) :=
  ⟨Or.inl rfl, asyncQueue_invariant ⟨[], [], 0⟩ 5 0 (Or.inl rfl)⟩

/-! ## Session-key resolution (src/agent/loop.ts, src/bus/events.ts) -/

/-- Characters of a string up to the first colon, and the remainder after
it when a colon occurs (the recursion underlying the JavaScript
`chatId.split(":")` used with a limit of 2). -/
def takeUntilColon : List Char → List Char × Option (List Char)
  | [] => ([], none)
  | c :: rest =>
      if c = ':' then ([], some rest)
      else
        let p := takeUntilColon rest
        (c :: p.1, p.2)

/-- JavaScript `chatId.split(":", 2)`: the first two colon-separated
segments of the string (the limit TRUNCATES — everything after the second
segment is discarded, unlike a remainder-preserving split). -/
def jsSplitColon2 (s : String) : String × Option String :=
  let p := takeUntilColon s.data
  match p.2 with
  | none => (String.mk p.1, none)
  | some rest => (String.mk p.1, some (String.mk (takeUntilColon rest).1))

/-- JavaScript `chatId.includes(":")`. -/
def jsIncludesColon (s : String) : Bool := s.data.contains ':'

/-- Session-key resolution of the agent loop: `processMessage` uses
`channel + ":" + chatId`; `processSystemMessage` decodes `chatId` with
`split(":", 2)` into `[originChannel, originChatId]` (defaulting to
channel `"cli"` when no colon occurs) and uses
`originChannel + ":" + originChatId`. -/
def resolveSessionKey (channel chatId : String) : String :=
  if channel = "system" then
    if jsIncludesColon chatId then
      match jsSplitColon2 chatId with
      | (ch, some id) => ch ++ ":" ++ id
      | (_, none) => "cli:" ++ chatId
    else "cli:" ++ chatId
  else channel ++ ":" ++ chatId

/-- `getSessionKey` (src/bus/events.ts): `channel + ":" + chatId`. -/
def getSessionKey (channel chatId : String) : String := channel ++ ":" ++ chatId

lemma takeUntilColon_no_colon (cs : List Char) (h : cs.contains ':' = false) :
    takeUntilColon cs = (cs, none) := by
  induction cs with
  | nil => rfl
  | cons c rest ih =>
      simp only [List.contains_cons, Bool.or_eq_false_iff] at h
      have hc : ¬ c = ':' := by
        intro hc
        subst hc
        simp at h
      rw [takeUntilColon, if_neg hc, ih h.2]

lemma takeUntilColon_append_colon (a b : List Char) (h : a.contains ':' = false) :
    takeUntilColon (a ++ ':' :: b) = (a, some b) := by
  induction a with
  | nil => simp [takeUntilColon]
  | cons c rest ih =>
      simp only [List.contains_cons, Bool.or_eq_false_iff] at h
      have hc : ¬ c = ':' := by
        intro hc
        subst hc
        simp at h
      simp only [List.cons_append]
      rw [takeUntilColon, if_neg hc, ih h.2]

/-- C5 counterexample: a system message whose `originChatId` itself
contains a colon does NOT resolve to the full original string — the
third colon-separated segment is discarded by `split(":", 2)`. -/
theorem system_session_key_truncates_counterexample :
    resolveSessionKey "system" "telegram:123:456" = "telegram:123" ∧
    resolveSessionKey "system" "telegram:123:456" ≠ "telegram:123:456" := by
  constructor
  · rfl
  · decide

/-- C5 (amended): for every non-system inbound message the session key is
`channel + ":" + chatId` (likewise `getSessionKey`); a system `chatId`
without a colon resolves to `"cli:" ++ chatId`; a system `chatId` with
exactly one colon, `originChannel ++ ":" ++ originChatId` with both parts
colon-free, recovers the full original string; and a system `chatId` with
two or more colons — `a ++ ":" ++ b ++ ":" ++ c` with `a`, `b` colon-free
and `c` arbitrary — keeps only the first two colon-separated segments,
yielding `a ++ ":" ++ b`. -/
theorem session_key_resolution :
    (∀ channel chatId : String, channel ≠ "system" →
      resolveSessionKey channel chatId = channel ++ ":" ++ chatId) ∧
    (∀ channel chatId : String,
      getSessionKey channel chatId = channel ++ ":" ++ chatId) ∧
    (∀ chatId : String, chatId.data.contains ':' = false →
      resolveSessionKey "system" chatId = "cli:" ++ chatId) ∧
    (∀ oc ocid : String, oc.data.contains ':' = false →
      ocid.data.contains ':' = false →
      resolveSessionKey "system" (oc ++ ":" ++ ocid) = oc ++ ":" ++ ocid) ∧
    (∀ a b c : String, a.data.contains ':' = false →
      b.data.contains ':' = false →
      resolveSessionKey "system" (a ++ ":" ++ b ++ ":" ++ c) =
        a ++ ":" ++ b) := by
  refine ⟨?_, fun _ _ => rfl, ?_, ?_, ?_⟩
  · intro channel chatId hch
    rw [resolveSessionKey, if_neg hch]
  · intro chatId hplain
    have hinc : jsIncludesColon chatId = false := hplain
    rw [resolveSessionKey, if_pos rfl, hinc]
    simp
  · intro oc ocid hoc hocid
    have hdata : (oc ++ ":" ++ ocid).data = oc.data ++ ':' :: ocid.data := by
      simp [String.data_append]
    have hinc : jsIncludesColon (oc ++ ":" ++ ocid) = true := by
      rw [jsIncludesColon, hdata]
      exact List.elem_eq_true_of_mem
        (List.mem_append_right _ (List.mem_cons_self _ _))
    have hsplit : jsSplitColon2 (oc ++ ":" ++ ocid) = (oc, some ocid) := by
      rw [jsSplitColon2, hdata, takeUntilColon_append_colon _ _ hoc]
      simp only
      rw [takeUntilColon_no_colon _ hocid]
    rw [resolveSessionKey, if_pos rfl, hinc, if_pos rfl, hsplit]
  · intro a b c ha hb
    have hdata : (a ++ ":" ++ b ++ ":" ++ c).data =
        a.data ++ ':' :: (b.data ++ ':' :: c.data) := by
      simp [String.data_append]
    have hinc : jsIncludesColon (a ++ ":" ++ b ++ ":" ++ c) = true := by
      rw [jsIncludesColon, hdata]
      exact List.elem_eq_true_of_mem
        (List.mem_append_right _ (List.mem_cons_self _ _))
    have hsplit : jsSplitColon2 (a ++ ":" ++ b ++ ":" ++ c) = (a, some b) := by
      rw [jsSplitColon2, hdata, takeUntilColon_append_colon _ _ ha]
      simp only
      rw [takeUntilColon_append_colon _ _ hb]
    rw [resolveSessionKey, if_pos rfl, hinc, if_pos rfl, hsplit]

/-- Witness for C5 (amended) at concrete channel/chat ids, including a
system `chatId` with two colons that is truncated to its first two
segments. -/
theorem session_key_resolution_witness :
    (("telegram" : String) ≠ "system" ∧
     ("abc" : String).data.contains ':' = false ∧
     ("tg" : String).data.contains ':' = false ∧
     ("99" : String).data.contains ':' = false ∧
     ("123" : String).data.contains ':' = false) ∧
    (resolveSessionKey "telegram" "abc" = "telegram" ++ ":" ++ "abc" ∧
     getSessionKey "telegram" "abc" = "telegram" ++ ":" ++ "abc" ∧
     resolveSessionKey "system" "abc" = "cli:" ++ "abc" ∧
     resolveSessionKey "system" ("tg" ++ ":" ++ "99") = "tg" ++ ":" ++ "99" ∧
     resolveSessionKey "system" ("telegram" ++ ":" ++ "123" ++ ":" ++ "456") =
       "telegram" ++ ":" ++ "123") :=
  ⟨⟨by decide, by decide, by decide, by decide, by decide⟩,
   session_key_resolution.1 "telegram" "abc" (by decide),
   session_key_resolution.2.1 "telegram" "abc",
   session_key_resolution.2.2.1 "abc" (by decide),
   session_key_resolution.2.2.2.1 "tg" "99" (by decide) (by decide),
   session_key_resolution.2.2.2.2 "telegram" "123" "456"
     (by decide) (by decide)⟩

/-! ## Chat messages and session history (src/providers/base.ts, src/session/manager.ts) -/

/-- Entry of an assistant message's `tool_calls` array
(`{id, type: "function", function: {name, arguments}}`; the constant
`type` discriminant is elided, `arguments` is the JSON-serialised string). -/
structure ToolCallDict where
  id : String
  name : String
  arguments : String
deriving DecidableEq, Repr

/-- `ChatMessage` (src/providers/base.ts).  `content` is modelled as a
string (`string | ContentPart[] | null` in the source: the inline-media
content parts and the `null` case play no role in the verified
properties, and `content ?? ""` coalescing is applied at each write
site). -/
structure ChatMessage where
  role : String
  content : String
  tool_calls : Option (List ToolCallDict) := none
  tool_call_id : Option String := none
  name : Option String := none
deriving DecidableEq, Repr

/-- Walk forward from the trim point until a `user`-role message is
reached (the `while` loop of `Session.getHistory`). -/
def trimToUser : List ChatMessage → List ChatMessage
  | [] => []
  | m :: rest => if m.role = "user" then m :: rest else trimToUser rest

/-- `Session.getHistory(maxMessages = 200)` (rich format,
src/session/manager.ts): return the whole history when within the bound,
otherwise the suffix of `maxMessages` entries advanced to the next
`user`-role boundary so a tool-call/tool-result pair is never split. -/
def sessionGetHistory (history : List ChatMessage) (maxMessages : Nat := 200) :
    List ChatMessage :=
  if history.length ≤ maxMessages then history
  else trimToUser (history.drop (history.length - maxMessages))

/-- The six-message history of the trimming example:
`[user, assistant(tool_call), tool, assistant(text), user, assistant(text)]`. -/
def exampleHistory : List ChatMessage :=
  [{ role := "user", content := "hi" },
   { role := "assistant", content := "",
     tool_calls := some [⟨"call1", "read_file", "\x7b\x7d"⟩] },
   { role := "tool", content := "data", tool_call_id := some "call1",
     name := some "read_file" },
   { role := "assistant", content := "done" },
   { role := "user", content := "again" },
   { role := "assistant", content := "sure" }]

lemma trimToUser_suffix (l : List ChatMessage) : (trimToUser l).IsSuffix l := by
  induction l with
  | nil => exact List.suffix_refl []
  | cons m rest ih =>
      rw [trimToUser]
      by_cases hm : m.role = "user"
      · rw [if_pos hm]
      · rw [if_neg hm]
        exact ih.trans (List.suffix_cons m rest)

lemma trimToUser_length_le (l : List ChatMessage) :
    (trimToUser l).length ≤ l.length :=
  (trimToUser_suffix l).length_le

lemma trimToUser_head_user (l : List ChatMessage) (m : ChatMessage)
    (h : (trimToUser l).head? = some m) : m.role = "user" := by
  induction l with
  | nil => simp [trimToUser] at h
  | cons x rest ih =>
      rw [trimToUser] at h
      by_cases hx : x.role = "user"
      · rw [if_pos hx] at h
        simp at h
        exact h ▸ hx
      · rw [if_neg hx] at h
        exact ih h

/-- C6: when the stored history exceeds the maximum message count,
`getHistory` returns a suffix of at most that many messages whose first
entry, if any, is a `user`-role message; in particular the six-message
example trimmed to 3 starts at the second `user` message (index 4), after
the tool-call/tool-result pair. -/
theorem session_trimming_user_boundary (history : List ChatMessage)
    (maxMessages : Nat) (h : maxMessages < history.length) :
    (sessionGetHistory history maxMessages).IsSuffix history ∧
    (sessionGetHistory history maxMessages).length ≤ maxMessages ∧
    (∀ m, (sessionGetHistory history maxMessages).head? = some m →
      m.role = "user") ∧
    sessionGetHistory exampleHistory 3 = exampleHistory.drop 4 := by
  have hgt : ¬ history.length ≤ maxMessages := Nat.not_le.mpr h
  rw [sessionGetHistory, if_neg hgt]
  refine ⟨?_, ?_, ?_, ?_⟩
  · exact (trimToUser_suffix _).trans (List.drop_suffix _ _)
  · calc (trimToUser (history.drop (history.length - maxMessages))).length
        ≤ (history.drop (history.length - maxMessages)).length :=
          trimToUser_length_le _
      _ ≤ maxMessages := by
          rw [List.length_drop]
          omega
  · intro m hm
    exact trimToUser_head_user _ m hm
  · decide

/-- Witness for C6: the six-message example history trimmed to 3. -/
theorem session_trimming_user_boundary_witness :
    3 < exampleHistory.length ∧
    ((sessionGetHistory exampleHistory 3).IsSuffix exampleHistory ∧
     (sessionGetHistory exampleHistory 3).length ≤ 3 ∧
     (∀ m, (sessionGetHistory exampleHistory 3).head? = some m →
       m.role = "user") ∧
     sessionGetHistory exampleHistory 3 = exampleHistory.drop 4) :=
  ⟨by decide, session_trimming_user_boundary exampleHistory 3 (by decide)⟩

/-! ## Cron scheduler (src/cron/types.ts, src/cron/service.ts) -/

/-- `CronSchedule` (src/cron/types.ts): tagged record with a string
`kind` (`"at" | "every" | "cron"`) and optional per-kind fields. -/
structure CronSchedule where
  kind : String
  atMs : Option Int := none
  everyMs : Option Int := none
  expr : Option String := none
  tz : Option String := none
deriving DecidableEq, Repr

/-- `CronPayload` (src/cron/types.ts); the source field `to` is a Lean
keyword and is rendered `to'`. -/
structure CronPayload where
  kind : String := "agent_turn"
  message : String := ""
  deliver : Bool := false
  channel : Option String := none
  to' : Option String := none
deriving DecidableEq, Repr

/-- `CronJobState` (src/cron/types.ts). -/
structure CronJobState where
  nextRunAtMs : Option Int := none
  lastRunAtMs : Option Int := none
  lastStatus : Option String := none
  lastError : Option String := none
deriving DecidableEq, Repr

/-- `CronJob` (src/cron/types.ts). -/
structure CronJob where
  id : String
  name : String
  enabled : Bool
  schedule : CronSchedule
  payload : CronPayload := {}
  state : CronJobState := {}
  createdAtMs : Int := 0
  updatedAtMs : Int := 0
  deleteAfterRun : Bool := false
deriving DecidableEq, Repr

/-- `computeNextRun` (src/cron/service.ts).  `cronNext` models the
external cron-parser library call (`parseExpression(expr).next()`),
returning `none` when the expression fails to parse (the `catch` branch).
JavaScript number truthiness (`0` is falsy) is made explicit in the
`atMs`/`everyMs` guards. -/
def computeNextRun (cronNext : String → Option Int) (schedule : CronSchedule)
    (currentMs : Int) : Option Int :=
  if schedule.kind = "at" then
    match schedule.atMs with
    | some a => if a ≠ 0 ∧ currentMs < a then some a else none
    | none => none
  else if schedule.kind = "every" then
    match schedule.everyMs with
    | some ev => if ev = 0 ∨ ev ≤ 0 then none else some (currentMs + ev)
    | none => none
  else if schedule.kind = "cron" then
    match schedule.expr with
    | some ex => cronNext ex
    | none => none
  else none

/-- `CronService.enableJob(jobId, enabled)`: mutate the first job with the
matching id — set `enabled`, refresh `updatedAtMs`, and recompute
`state.nextRunAtMs` from the schedule when enabling or clear it to null
when disabling. -/
def enableJob (cronNext : String → Option Int) (now : Int) (jobId : String)
    (enabled : Bool) : List CronJob → List CronJob
  | [] => []
  | j :: rest =>
      if j.id = jobId then
        { j with
          enabled := enabled
          updatedAtMs := now
          state := { j.state with
            nextRunAtMs :=
              if enabled then computeNextRun cronNext j.schedule now
              else none } } :: rest
      else j :: enableJob cronNext now jobId enabled rest

/-- Due-job filter of `CronService.onTimer`:
`j.enabled && j.state.nextRunAtMs && now >= j.state.nextRunAtMs` (the
truthiness of `nextRunAtMs` again excludes `0`). -/
def isDue (now : Int) (j : CronJob) : Bool :=
  j.enabled &&
    match j.state.nextRunAtMs with
    | some t => t != 0 && decide (t ≤ now)
    | none => false

/-- Tail of `CronService.executeJob` after the `try`/`catch` fixed the
status/error pair: record `lastRunAtMs`/`updatedAtMs`, then for `at` jobs
delete (`none`) or disable, and otherwise recompute `nextRunAtMs`.
`startMs` and `endMs` stand for the successive `Date.now()` readings. -/
def executeJobFinish (st : String) (er : Option String)
    (cronNext : String → Option Int) (startMs endMs : Int) (j : CronJob) :
    Option CronJob :=
  let j1 := { j with
    state := { j.state with
      lastStatus := some st
      lastError := er
      lastRunAtMs := some startMs }
    updatedAtMs := endMs }
  if j1.schedule.kind = "at" then
    if j1.deleteAfterRun then none
    else some { j1 with
                enabled := false
                state := { j1.state with nextRunAtMs := none } }
  else some { j1 with
              state := { j1.state with
                nextRunAtMs := computeNextRun cronNext j1.schedule endMs } }

/-- `CronService.executeJob`: run the injected callback (its outcome is
the `Except` argument: `.error` models a thrown exception), catching any
exception into `lastStatus = "error"` / `lastError`. -/
def executeJob (outcome : Except String (Option String))
    (cronNext : String → Option Int) (startMs endMs : Int) (j : CronJob) :
    Option CronJob :=
  match outcome with
  | .ok _ => executeJobFinish "ok" none cronNext startMs endMs j
  | .error e => executeJobFinish "error" (some e) cronNext startMs endMs j

/-- `executeJob` in the exception monad: because the callback invocation
sits inside `try`/`catch`, the function as a whole never propagates an
exception. -/
def executeJobE (outcome : Except String (Option String))
    (cronNext : String → Option Int) (startMs endMs : Int) (j : CronJob) :
    Except String (Option CronJob) :=
  .ok (executeJob outcome cronNext startMs endMs j)

/-- Denotation of one `CronService.onTimer` pass over the job store:
every due job is executed in store order (`deleteAfterRun` removals drop
the entry); `outcomes` gives each job's callback result by job id. -/
def runDue (outcomes : String → Except String (Option String))
    (cronNext : String → Option Int) (now : Int) :
    List CronJob → List CronJob
  | [] => []
  | j :: rest =>
      if isDue now j then
        match executeJob (outcomes j.id) cronNext now now j with
        | none => runDue outcomes cronNext now rest
        | some j2 => j2 :: runDue outcomes cronNext now rest
      else j :: runDue outcomes cronNext now rest

/-- The same tick pass sequenced in the exception monad: an uncaught
exception in any `executeJobE` would abort the remaining due jobs. -/
def runDueE (outcomes : String → Except String (Option String))
    (cronNext : String → Option Int) (now : Int) :
    List CronJob → Except String (List CronJob)
  | [] => .ok []
  | j :: rest =>
      if isDue now j then
        match executeJobE (outcomes j.id) cronNext now now j with
        | .error e => .error e
        | .ok none => runDueE outcomes cronNext now rest
        | .ok (some j2) =>
            Except.map (fun l => j2 :: l) (runDueE outcomes cronNext now rest)
      else Except.map (fun l => j :: l) (runDueE outcomes cronNext now rest)

lemma runDueE_ok (outcomes : String → Except String (Option String))
    (cronNext : String → Option Int) (now : Int) (jobs : List CronJob) :
    runDueE outcomes cronNext now jobs =
      .ok (runDue outcomes cronNext now jobs) := by
  induction jobs with
  | nil => rfl
  | cons j rest ih =>
      rw [runDueE, runDue]
      by_cases hd : isDue now j = true
      · rw [if_pos hd, if_pos hd, executeJobE]
        cases hex : executeJob (outcomes j.id) cronNext now now j with
        | none => exact ih
        | some j2 => rw [ih]; rfl
      · rw [if_neg hd, if_neg hd, ih]; rfl

lemma runDue_append (outcomes : String → Except String (Option String))
    (cronNext : String → Option Int) (now : Int) (l1 l2 : List CronJob) :
    runDue outcomes cronNext now (l1 ++ l2) =
      runDue outcomes cronNext now l1 ++ runDue outcomes cronNext now l2 := by
  induction l1 with
  | nil => rfl
  | cons j rest ih =>
      rw [List.cons_append, runDue, runDue]
      by_cases hd : isDue now j = true
      · rw [if_pos hd, if_pos hd]
        cases hex : executeJob (outcomes j.id) cronNext now now j with
        | none => exact ih
        | some j2 => rw [ih]; rfl
      · rw [if_neg hd, if_neg hd, ih]; rfl

lemma enableJob_append_of_not_found (cronNext : String → Option Int)
    (now : Int) (jobId : String) (enabled : Bool) (pre l : List CronJob)
    (hpre : ∀ k ∈ pre, k.id ≠ jobId) :
    enableJob cronNext now jobId enabled (pre ++ l) =
      pre ++ enableJob cronNext now jobId enabled l := by
  induction pre with
  | nil => rfl
  | cons k rest ih =>
      have hk : ¬ k.id = jobId := hpre k (List.mem_cons_self k rest)
      rw [List.cons_append, enableJob, if_neg hk,
        ih fun x hx => hpre x (List.mem_cons_of_mem k hx), List.cons_append]

/-- C7: `computeNextRun` for an `every` schedule with positive interval
yields `now + intervalMs` and `none` for a non-positive interval; for an
`at` schedule it yields `atMs` exactly when `atMs` is strictly in the
future; `enableJob(id, false)` clears the job's `nextRunAtMs` and
`enableJob(id, true)` recomputes it from the schedule. -/
theorem cron_next_run_computation (cn : String → Option Int)
    (ev a now : Int) (jid : String) (pre post : List CronJob) (j : CronJob)
    (hpre : ∀ k ∈ pre, k.id ≠ jid) (hj : j.id = jid) (hnow : 0 ≤ now) :
    (0 < ev →
      computeNextRun cn { kind := "every", everyMs := some ev } now =
        some (now + ev)) ∧
    (ev ≤ 0 →
      computeNextRun cn { kind := "every", everyMs := some ev } now = none) ∧
    (computeNextRun cn { kind := "at", atMs := some a } now =
      if now < a then some a else none) ∧
    (enableJob cn now jid false (pre ++ j :: post) =
      pre ++ { j with
               enabled := false
               updatedAtMs := now
               state := { j.state with nextRunAtMs := none } } :: post) ∧
    (enableJob cn now jid true (pre ++ j :: post) =
      pre ++ { j with
               enabled := true
               updatedAtMs := now
               state := { j.state with
                 nextRunAtMs := computeNextRun cn j.schedule now } } :: post) := by
  refine ⟨?_, ?_, ?_, ?_, ?_⟩
  · intro hev
    have h1 : ¬ (ev = 0 ∨ ev ≤ 0) := by omega
    simp [computeNextRun, h1]
  · intro hev
    have h1 : ev = 0 ∨ ev ≤ 0 := Or.inr hev
    simp [computeNextRun, h1]
  · by_cases hfut : now < a
    · have ha : a ≠ 0 := by omega
      simp [computeNextRun, hfut, ha]
    · simp [computeNextRun, hfut]
  · rw [enableJob_append_of_not_found cn now jid false pre _ hpre,
      enableJob, if_pos hj]
    simp
  · rw [enableJob_append_of_not_found cn now jid true pre _ hpre,
      enableJob, if_pos hj]
    simp

/-- Concrete interval job used in the cron witnesses. -/
def exampleCronJob : CronJob :=
  { id := "j1"
    name := "reminder"
    enabled := true
    schedule := { kind := "every", everyMs := some 60000 }
    state := { nextRunAtMs := some 60000 } }

/-- Witness for C7 at `every(60000)` evaluated at `t = 0`. -/
theorem cron_next_run_computation_witness :
    ((∀ k ∈ ([] : List CronJob), k.id ≠ "j1") ∧ exampleCronJob.id = "j1" ∧
      (0 : Int) ≤ 0) ∧
    ((0 < (60000 : Int) →
       computeNextRun (fun _ => none)
         { kind := "every", everyMs := some 60000 } 0 = some (0 + 60000)) ∧
     ((60000 : Int) ≤ 0 →
       computeNextRun (fun _ => none)
         { kind := "every", everyMs := some 60000 } 0 = none) ∧
     (computeNextRun (fun _ => none) { kind := "at", atMs := some 5 } 0 =
       if (0 : Int) < 5 then some 5 else none) ∧
     (enableJob (fun _ => none) 0 "j1" false ([] ++ exampleCronJob :: []) =
       [] ++ { exampleCronJob with
               enabled := false
               updatedAtMs := 0
               state := { exampleCronJob.state with nextRunAtMs := none } }
         :: []) ∧
     (enableJob (fun _ => none) 0 "j1" true ([] ++ exampleCronJob :: []) =
       [] ++ { exampleCronJob with
               enabled := true
               updatedAtMs := 0
               state := { exampleCronJob.state with
                 nextRunAtMs :=
                   computeNextRun (fun _ => none) exampleCronJob.schedule 0 } }
         :: [])) :=
  ⟨⟨by simp, rfl, le_refl 0⟩,
   cron_next_run_computation (fun _ => none) 60000 5 0 "j1" [] []
     exampleCronJob (by simp) rfl (le_refl 0)⟩

/-- C8: when a due job's callback throws, the failure is recorded in that
job's state (`lastStatus = "error"`, `lastError`, `lastRunAtMs`), the
exception does not escape the tick handler (`runDueE` returns `.ok`), and
every other job — in particular every subsequent due job of the same
tick — is still processed exactly as it would be on its own. -/
theorem cron_job_failure_isolated
    (outcomes : String → Except String (Option String))
    (cn : String → Option Int) (now : Int) (e : String)
    (pre post : List CronJob) (j : CronJob)
    (hdue : isDue now j = true) (herr : outcomes j.id = .error e) :
    runDueE outcomes cn now (pre ++ j :: post) =
      .ok (runDue outcomes cn now (pre ++ j :: post)) ∧
    runDue outcomes cn now (pre ++ j :: post) =
      runDue outcomes cn now pre ++
        (executeJob (.error e) cn now now j).toList ++
        runDue outcomes cn now post ∧
    ∀ k ∈ (executeJob (.error e) cn now now j).toList,
      k.state.lastStatus = some "error" ∧ k.state.lastError = some e ∧
        k.state.lastRunAtMs = some now := by
  refine ⟨runDueE_ok outcomes cn now _, ?_, ?_⟩
  · rw [runDue_append, runDue, if_pos hdue, herr, List.append_assoc]
    cases hex : executeJob (.error e) cn now now j with
    | none => rw [Option.toList_none, List.nil_append]
    | some j2 => rw [Option.toList_some, List.singleton_append]
  · intro k hk
    simp only [executeJob, executeJobFinish] at hk
    split at hk
    · split at hk
      · simp at hk
      · rw [Option.toList_some, List.mem_singleton] at hk
        subst hk
        exact ⟨rfl, rfl, rfl⟩
    · rw [Option.toList_some, List.mem_singleton] at hk
      subst hk
      exact ⟨rfl, rfl, rfl⟩

/-- Concrete overdue job whose callback fails, for the C8 witness. -/
def exampleDueJob : CronJob :=
  { id := "j2"
    name := "webhook"
    enabled := true
    schedule := { kind := "every", everyMs := some 60000 }
    state := { nextRunAtMs := some (-5) } }

/-- Witness for C8: a single due job whose callback throws `"boom"`. -/
theorem cron_job_failure_isolated_witness :
    (isDue 0 exampleDueJob = true ∧
     (fun _ : String => (.error "boom" : Except String (Option String)))
       exampleDueJob.id = .error "boom") ∧
    (runDueE (fun _ => .error "boom") (fun _ => none) 0
        ([] ++ exampleDueJob :: []) =
      .ok (runDue (fun _ => .error "boom") (fun _ => none) 0
        ([] ++ exampleDueJob :: [])) ∧
     runDue (fun _ => .error "boom") (fun _ => none) 0
        ([] ++ exampleDueJob :: []) =
      runDue (fun _ => .error "boom") (fun _ => none) 0 [] ++
        (executeJob (.error "boom") (fun _ => none) 0 0 exampleDueJob).toList ++
        runDue (fun _ => .error "boom") (fun _ => none) 0 [] ∧
     ∀ k ∈ (executeJob (.error "boom") (fun _ => none) 0 0
         exampleDueJob).toList,
       k.state.lastStatus = some "error" ∧ k.state.lastError = some "boom" ∧
         k.state.lastRunAtMs = some 0) :=
  ⟨⟨by decide, rfl⟩,
   cron_job_failure_isolated (fun _ => .error "boom") (fun _ => none) 0
     "boom" [] [] exampleDueJob (by decide) rfl⟩

/-! ## Tool registry and agent tool-calling loop
(src/agent/tools/registry.ts, src/agent/loop.ts) -/

/-- Structured tool-call arguments (`Record<string, unknown>`), modelled
as a string-to-string mapping. -/
abbrev Args := List (String × String)

/-- `JSON.stringify(tc.arguments)` for the modelled flat mapping. -/
def stringifyArgs (a : Args) : String :=
  "\x7b" ++
    String.intercalate ","
      (a.map fun p => "\"" ++ p.1 ++ "\":\"" ++ p.2 ++ "\"") ++
  "\x7d"

/-- `ToolCallRequest` (src/providers/base.ts). -/
structure ToolCallRequest where
  id : String
  name : String
  arguments : Args
deriving DecidableEq, Repr

/-- `LLMResponse` (src/providers/base.ts); `usage` is elided. -/
structure LLMResponse where
  content : Option String
  toolCalls : List ToolCallRequest
  hasToolCalls : Bool
deriving DecidableEq, Repr

/-- A registered tool (src/agent/tools/base.ts): `execute` may throw,
modelled by `Except.error`. -/
structure Tool where
  name : String
  execute : Args → Except String String

/-- `ToolRegistry.register` over the insertion-ordered name→tool map:
`Map.set` overwrites an existing entry in place or appends a new one. -/
def registerTool (reg : List Tool) (t : Tool) : List Tool :=
  if reg.any (fun u => u.name == t.name) then
    reg.map fun u => if u.name == t.name then t else u
  else reg ++ [t]

/-- `ToolRegistry.get` / `Map.get`. -/
def findTool (reg : List Tool) (nm : String) : Option Tool :=
  reg.find? fun t => t.name == nm

/-- `ToolRegistry.execute(name, args)`: unknown tools yield an error
string, and a thrown exception is caught and converted to
`"Error executing <name>: <message>"`. -/
def executeTool (reg : List Tool) (nm : String) (args : Args) : String :=
  match findTool reg nm with
  | none => "Error: Unknown tool \x27" ++ nm ++ "\x27"
  | some t =>
      match t.execute args with
      | .ok s => s
      | .error msg => "Error executing " ++ nm ++ ": " ++ msg

/-- The `toolCallDicts` mapping of `AgentLoop.runAgentLoop`: raw tool-call
records (`{id, function: {name, arguments: JSON.stringify(...)}}`). -/
def toolCallDicts (tcs : List ToolCallRequest) : List ToolCallDict :=
  tcs.map fun tc =>
    { id := tc.id, name := tc.name, arguments := stringifyArgs tc.arguments }

/-- `ContextBuilder.addAssistantMessage`: push one assistant message with
`content ?? ""` and the optional raw tool-call records. -/
def addAssistantMessage (messages : List ChatMessage) (content : Option String)
    (toolCalls : Option (List ToolCallDict)) : List ChatMessage :=
  messages ++
    [{ role := "assistant", content := content.getD "", tool_calls := toolCalls }]

/-- `ContextBuilder.addToolResult`: push one `tool`-role message for a
tool call's result. -/
def addToolResult (messages : List ChatMessage)
    (toolCallId toolName result : String) : List ChatMessage :=
  messages ++
    [{ role := "tool", content := result, tool_call_id := some toolCallId,
       name := some toolName }]

/-- Tool-call branch of one `runAgentLoop` iteration: append the assistant
message carrying the raw tool-call records, then execute the calls
sequentially in returned order, appending one tool result each. -/
def toolCallStep (exec : String → Args → String) (messages : List ChatMessage)
    (r : LLMResponse) : List ChatMessage :=
  r.toolCalls.foldl
    (fun ms tc => addToolResult ms tc.id tc.name (exec tc.name tc.arguments))
    (addAssistantMessage messages r.content (some (toolCallDicts r.toolCalls)))

/-- The fixed fallback answer of `AgentLoop.runAgentLoop`. -/
def agentFallback : String :=
  "I\x27ve completed processing but have no response to give."

/-- The bounded `for` loop of `AgentLoop.runAgentLoop`: call the LLM; on
tool calls extend the message list and continue, otherwise push the final
assistant message and stop with `response.content`. -/
def runLoopIter (chat : List ChatMessage → LLMResponse)
    (exec : String → Args → String) :
    Nat → List ChatMessage → List ChatMessage × Option String
  | 0, ms => (ms, none)
  | fuel + 1, ms =>
      let r := chat ms
      if r.hasToolCalls then runLoopIter chat exec fuel (toolCallStep exec ms r)
      else (ms ++ [{ role := "assistant", content := r.content.getD "" }], r.content)

/-- Tail of `AgentLoop.runAgentLoop`: coalesce a missing final answer to
the fallback string and push it as a final assistant message unless the
list already ends with exactly that assistant message. -/
def finishTurn (p : List ChatMessage × Option String) :
    List ChatMessage × String :=
  let fc := p.2.getD agentFallback
  let alreadyLast : Bool :=
    match p.1.getLast? with
    | some m => m.role == "assistant" && m.content == fc
    | none => false
  if alreadyLast then (p.1, fc)
  else (p.1 ++ [{ role := "assistant", content := fc }], fc)

/-- `AgentLoop.runAgentLoop(messages)`: the iteration loop followed by the
fallback handling; returns the final message list and the final text. -/
def runAgentLoop (chat : List ChatMessage → LLMResponse)
    (exec : String → Args → String) (maxIterations : Nat)
    (messages : List ChatMessage) : List ChatMessage × String :=
  finishTurn (runLoopIter chat exec maxIterations messages)

lemma foldl_addToolResult (exec : String → Args → String)
    (tcs : List ToolCallRequest) (init : List ChatMessage) :
    tcs.foldl
        (fun ms tc => addToolResult ms tc.id tc.name (exec tc.name tc.arguments))
        init =
      init ++ tcs.map (fun tc =>
        { role := "tool", content := exec tc.name tc.arguments,
          tool_call_id := some tc.id, name := some tc.name }) := by
  induction tcs generalizing init with
  | nil => simp
  | cons tc rest ih =>
      rw [List.foldl_cons, List.map_cons, ih, addToolResult]
      simp

/-- An LLM script returning two tool calls on the first call and a final
text on the second. -/
def exampleChatScript : List ChatMessage → LLMResponse := fun ms =>
  if ms.length ≤ 1 then
    { content := none,
      toolCalls := [⟨"c1", "read_file", []⟩, ⟨"c2", "write_file", []⟩],
      hasToolCalls := true }
  else { content := some "done", toolCalls := [], hasToolCalls := false }

/-- History persisted by a two-tool-call turn under `exampleChatScript`:
assistant(with both tool_calls), tool-result(call 1), tool-result(call 2),
final assistant(text). -/
def exampleTurnMessages : List ChatMessage :=
  [{ role := "user", content := "hi" },
   { role := "assistant", content := "",
     tool_calls := some [⟨"c1", "read_file", "\x7b\x7d"⟩,
                         ⟨"c2", "write_file", "\x7b\x7d"⟩] },
   { role := "tool", content := "ok-read_file", tool_call_id := some "c1",
     name := some "read_file" },
   { role := "tool", content := "ok-write_file", tool_call_id := some "c2",
     name := some "write_file" },
   { role := "assistant", content := "done" }]

/-- C2: in a loop iteration whose LLM response has tool calls, the message
list is extended by exactly one assistant message carrying the raw
tool-call records followed by exactly one tool-result message per call,
in returned order, and the loop then continues on that extended list; a
full turn with two tool calls persists exactly
assistant(tool_calls) → tool-result(1) → tool-result(2) → assistant(text). -/
theorem agent_loop_tool_call_ordering (chat : List ChatMessage → LLMResponse)
    (exec : String → Args → String) (fuel : Nat) (ms : List ChatMessage)
    (h : (chat ms).hasToolCalls = true) :
    toolCallStep exec ms (chat ms) =
      ms ++ ({ role := "assistant", content := (chat ms).content.getD "",
               tool_calls := some (toolCallDicts (chat ms).toolCalls) } ::
        (chat ms).toolCalls.map (fun tc =>
          { role := "tool", content := exec tc.name tc.arguments,
            tool_call_id := some tc.id, name := some tc.name })) ∧
    runLoopIter chat exec (fuel + 1) ms =
      runLoopIter chat exec fuel (toolCallStep exec ms (chat ms)) ∧
    runAgentLoop exampleChatScript (fun nm _ => "ok-" ++ nm) 20
      [{ role := "user", content := "hi" }] = (exampleTurnMessages, "done") := by
  refine ⟨?_, ?_, ?_⟩
  · rw [toolCallStep, foldl_addToolResult, addAssistantMessage]
    simp
  · rw [runLoopIter]
    simp only [h, if_true]
  · rfl

/-- Witness for C2: a response carrying two tool calls. -/
theorem agent_loop_tool_call_ordering_witness :
    ((fun _ : List ChatMessage =>
        ({ content := none,
           toolCalls := [⟨"c1", "read_file", []⟩, ⟨"c2", "write_file", []⟩],
           hasToolCalls := true } : LLMResponse))
      [{ role := "user", content := "hi" }]).hasToolCalls = true ∧
    (toolCallStep (fun nm _ => "ok-" ++ nm) [{ role := "user", content := "hi" }]
        ((fun _ : List ChatMessage =>
          ({ content := none,
             toolCalls := [⟨"c1", "read_file", []⟩, ⟨"c2", "write_file", []⟩],
             hasToolCalls := true } : LLMResponse))
          [{ role := "user", content := "hi" }]) =
      [{ role := "user", content := "hi" }] ++
        ({ role := "assistant",
           content := (((fun _ : List ChatMessage =>
             ({ content := none,
                toolCalls := [⟨"c1", "read_file", []⟩, ⟨"c2", "write_file", []⟩],
                hasToolCalls := true } : LLMResponse))
             [{ role := "user", content := "hi" }]).content).getD ""
           tool_calls := some (toolCallDicts (((fun _ : List ChatMessage =>
             ({ content := none,
                toolCalls := [⟨"c1", "read_file", []⟩, ⟨"c2", "write_file", []⟩],
                hasToolCalls := true } : LLMResponse))
             [{ role := "user", content := "hi" }]).toolCalls)) } ::
          (((fun _ : List ChatMessage =>
             ({ content := none,
                toolCalls := [⟨"c1", "read_file", []⟩, ⟨"c2", "write_file", []⟩],
                hasToolCalls := true } : LLMResponse))
             [{ role := "user", content := "hi" }]).toolCalls).map (fun tc =>
            { role := "tool", content := (fun nm _ => "ok-" ++ nm) tc.name tc.arguments,
              tool_call_id := some tc.id, name := some tc.name })) ∧
     runLoopIter (fun _ =>
         ({ content := none,
            toolCalls := [⟨"c1", "read_file", []⟩, ⟨"c2", "write_file", []⟩],
            hasToolCalls := true } : LLMResponse))
        (fun nm _ => "ok-" ++ nm) (0 + 1) [{ role := "user", content := "hi" }] =
      runLoopIter (fun _ =>
         ({ content := none,
            toolCalls := [⟨"c1", "read_file", []⟩, ⟨"c2", "write_file", []⟩],
            hasToolCalls := true } : LLMResponse))
        (fun nm _ => "ok-" ++ nm) 0
        (toolCallStep (fun nm _ => "ok-" ++ nm)
          [{ role := "user", content := "hi" }]
          ((fun _ : List ChatMessage =>
            ({ content := none,
               toolCalls := [⟨"c1", "read_file", []⟩, ⟨"c2", "write_file", []⟩],
               hasToolCalls := true } : LLMResponse))
            [{ role := "user", content := "hi" }])) ∧
     runAgentLoop exampleChatScript (fun nm _ => "ok-" ++ nm) 20
       [{ role := "user", content := "hi" }] = (exampleTurnMessages, "done")) :=
  ⟨rfl,
   agent_loop_tool_call_ordering
     (fun _ =>
       ({ content := none,
          toolCalls := [⟨"c1", "read_file", []⟩, ⟨"c2", "write_file", []⟩],
          hasToolCalls := true } : LLMResponse))
     (fun nm _ => "ok-" ++ nm) 0 [{ role := "user", content := "hi" }] rfl⟩

lemma runLoopIter_snd_none_of_always_tools (chat : List ChatMessage → LLMResponse)
    (exec : String → Args → String)
    (h : ∀ msgs, (chat msgs).hasToolCalls = true) :
    ∀ (fuel : Nat) (ms : List ChatMessage),
      (runLoopIter chat exec fuel ms).2 = none := by
  intro fuel
  induction fuel with
  | zero => intro ms; rfl
  | succ n ih =>
      intro ms
      rw [runLoopIter]
      simp only [h ms, if_true]
      exact ih _

/-- C3: when every LLM response contains tool calls, the turn still
returns the fixed fallback string as its final (non-null) answer, and the
final message list ends with an assistant message whose content is that
fallback — history always ends on an assistant turn. -/
theorem agent_loop_iteration_cap_fallback (chat : List ChatMessage → LLMResponse)
    (exec : String → Args → String) (maxIterations : Nat)
    (ms : List ChatMessage)
    (h : ∀ msgs, (chat msgs).hasToolCalls = true) :
    (runAgentLoop chat exec maxIterations ms).2 = agentFallback ∧
    ∃ m, (runAgentLoop chat exec maxIterations ms).1.getLast? = some m ∧
      m.role = "assistant" ∧ m.content = agentFallback := by
  have h2 : (runLoopIter chat exec maxIterations ms).2 = none :=
    runLoopIter_snd_none_of_always_tools chat exec h maxIterations ms
  simp only [runAgentLoop, finishTurn, h2, Option.getD_none]
  cases hlast : (runLoopIter chat exec maxIterations ms).1.getLast? with
  | none =>
      simp only
      rw [if_neg Bool.false_ne_true]
      exact ⟨rfl, { role := "assistant", content := agentFallback },
        List.getLast?_concat _, rfl, rfl⟩
  | some m =>
      by_cases hkeep : (m.role == "assistant" && m.content == agentFallback) = true
      · simp only [hkeep, if_true]
        rw [Bool.and_eq_true, beq_iff_eq, beq_iff_eq] at hkeep
        exact ⟨trivial, m, hlast, hkeep.1, hkeep.2⟩
      · simp only [hkeep]
        rw [if_neg Bool.false_ne_true]
        exact ⟨rfl, { role := "assistant", content := agentFallback },
          List.getLast?_concat _, rfl, rfl⟩

/-- Witness for C3: an LLM that always returns one tool call, run with the
default iteration cap of 20. -/
theorem agent_loop_iteration_cap_fallback_witness :
    (∀ msgs : List ChatMessage,
      ((fun _ => ({ content := none, toolCalls := [⟨"c1", "noop", []⟩],
                    hasToolCalls := true } : LLMResponse)) msgs).hasToolCalls
        = true) ∧
    ((runAgentLoop
        (fun _ => ({ content := none, toolCalls := [⟨"c1", "noop", []⟩],
                     hasToolCalls := true } : LLMResponse))
        (fun _ _ => "done") 20 [{ role := "user", content := "hi" }]).2 =
      agentFallback ∧
     ∃ m, (runAgentLoop
        (fun _ => ({ content := none, toolCalls := [⟨"c1", "noop", []⟩],
                     hasToolCalls := true } : LLMResponse))
        (fun _ _ => "done") 20
        [{ role := "user", content := "hi" }]).1.getLast? = some m ∧
       m.role = "assistant" ∧ m.content = agentFallback) :=
  ⟨fun _ => rfl,
   agent_loop_iteration_cap_fallback
     (fun _ => ({ content := none, toolCalls := [⟨"c1", "noop", []⟩],
                  hasToolCalls := true } : LLMResponse))
     (fun _ _ => "done") 20 [{ role := "user", content := "hi" }]
     (fun _ => rfl)⟩

/-- C9: a registered tool whose `execute` throws yields the string
`"Error executing <name>: <message>"` from `ToolRegistry.execute` instead
of a propagated exception, and an agent-loop iteration invoking that tool
simply appends the error string as the call's tool-result message and
continues with the next iteration. -/
theorem tool_registry_error_isolated (reg : List Tool) (nm : String)
    (args : Args) (t : Tool) (msg : String)
    (h1 : findTool reg nm = some t) (h2 : t.execute args = .error msg) :
    executeTool reg nm args = "Error executing " ++ nm ++ ": " ++ msg ∧
    ∀ (chat : List ChatMessage → LLMResponse) (fuel : Nat)
      (ms : List ChatMessage) (cid : String),
      chat ms = { content := none, toolCalls := [⟨cid, nm, args⟩],
                  hasToolCalls := true } →
      runLoopIter chat (executeTool reg) (fuel + 1) ms =
        runLoopIter chat (executeTool reg) fuel
          (ms ++ [{ role := "assistant", content := "",
                    tool_calls := some [⟨cid, nm, stringifyArgs args⟩] },
                  { role := "tool",
                    content := "Error executing " ++ nm ++ ": " ++ msg,
                    tool_call_id := some cid, name := some nm }]) := by
  have hex : executeTool reg nm args = "Error executing " ++ nm ++ ": " ++ msg := by
    rw [executeTool, h1]
    simp only [h2]
  refine ⟨hex, ?_⟩
  intro chat fuel ms cid hchat
  rw [runLoopIter]
  simp only [hchat]
  rw [if_pos trivial]
  congr 1
  rw [toolCallStep]
  simp only [List.foldl_cons, List.foldl_nil]
  rw [addAssistantMessage, addToolResult, toolCallDicts]
  simp [hex]

/-- Witness for C9: a registry holding one tool that always throws. -/
theorem tool_registry_error_isolated_witness :
    (findTool (registerTool [] ⟨"explode", fun _ => .error "kaboom"⟩) "explode" =
       some ⟨"explode", fun _ => .error "kaboom"⟩ ∧
     (Tool.execute ⟨"explode", fun _ => .error "kaboom"⟩) [] = .error "kaboom") ∧
    (executeTool (registerTool [] ⟨"explode", fun _ => .error "kaboom"⟩)
        "explode" [] = "Error executing " ++ "explode" ++ ": " ++ "kaboom" ∧
     ∀ (chat : List ChatMessage → LLMResponse) (fuel : Nat)
       (ms : List ChatMessage) (cid : String),
       chat ms = { content := none, toolCalls := [⟨cid, "explode", []⟩],
                   hasToolCalls := true } →
       runLoopIter chat
           (executeTool (registerTool [] ⟨"explode", fun _ => .error "kaboom"⟩))
           (fuel + 1) ms =
         runLoopIter chat
           (executeTool (registerTool [] ⟨"explode", fun _ => .error "kaboom"⟩))
           fuel
           (ms ++ [{ role := "assistant", content := "",
                     tool_calls := some [⟨cid, "explode", stringifyArgs []⟩] },
                   { role := "tool",
                     content := "Error executing " ++ "explode" ++ ": " ++ "kaboom",
                     tool_call_id := some cid, name := some "explode" }])) :=
  ⟨⟨rfl, rfl⟩,
   tool_registry_error_isolated
     (registerTool [] ⟨"explode", fun _ => .error "kaboom"⟩) "explode" []
     ⟨"explode", fun _ => .error "kaboom"⟩ "kaboom" rfl rfl⟩

/-! ## Subagent coordinator (src/agent/subagent.ts) -/

/-- `InboundMessage` (src/bus/events.ts); `timestamp` and `metadata`
play no role in the verified properties and are elided. -/
structure InboundMessage where
  channel : String
  senderId : String
  chatId : String
  content : String
  media : List String := []
deriving DecidableEq, Repr

/-- The fallback result of a subagent run whose loop produced no final
response. -/
def subagentFallback : String :=
  "Task completed but no final response was generated."

/-- `SubagentManager.buildSubagentPrompt(task)`. -/
def buildSubagentPrompt (workspace task : String) : String :=
  "# Subagent\n\nYou are a subagent spawned by the main agent to complete a specific task.\n\n## Your Task\n"
    ++ task ++
    "\n\n## Rules\n1. Stay focused - complete only the assigned task, nothing else\n2. Your final response will be reported back to the main agent\n3. Do not initiate conversations or take on side tasks\n4. Be concise but informative in your findings\n\n## What You Can Do\n- Read and write files in the workspace\n- Execute shell commands\n- Search the web and fetch web pages\n- Complete the task thoroughly\n\n## What You Cannot Do\n- Send messages directly to users (no message tool available)\n- Spawn other subagents\n- Access the main agent\x27s conversation history\n\n## Workspace\nYour workspace is at: "
    ++ workspace ++
    "\n\nWhen you have completed the task, provide a clear summary of your findings or actions."

/-- The initial message list of `runSubagent`: fixed system prompt plus
the task as the user message. -/
def initialSubMessages (workspace task : String) : List ChatMessage :=
  [{ role := "system", content := buildSubagentPrompt workspace task },
   { role := "user", content := task }]

/-- The bounded tool-calling loop inside `runSubagent`.  The LLM call may
throw (`chat` returns `Except`); tool execution goes through the
registry's catching `execute` and is total.  The per-iteration message
growth is the same as the main loop's (`toolCallStep`). -/
def subLoop (chat : List ChatMessage → Except String LLMResponse)
    (exec : String → Args → String) :
    Nat → List ChatMessage → Except String (List ChatMessage × Option String)
  | 0, ms => .ok (ms, none)
  | fuel + 1, ms =>
      match chat ms with
      | .error e => .error e
      | .ok r =>
          if r.hasToolCalls then subLoop chat exec fuel (toolCallStep exec ms r)
          else .ok (ms, r.content)

/-- Body of the announcement message built by
`SubagentManager.announceResult`. -/
def announceContent (label task result status : String) : String :=
  let statusText := if status == "ok" then "completed successfully" else "failed"
  "[Subagent \x27" ++ label ++ "\x27 " ++ statusText ++ "]\n\nTask: " ++ task ++
    "\n\nResult:\n" ++ result ++
    "\n\nSummarize this naturally for the user. Keep it brief (1-2 sentences). Do not mention technical details like \"subagent\" or task IDs."

/-- `SubagentManager.announceResult`: the system-channel inbound message
published to the bus, addressed back to the origin session. -/
def announceResult (label task result : String) (origin : String × String)
    (status : String) : InboundMessage :=
  { channel := "system"
    senderId := "subagent"
    chatId := origin.1 ++ ":" ++ origin.2
    content := announceContent label task result status }

/-- `SubagentManager.runSubagent`: run the loop inside `try`/`catch`
(iteration cap 15) and publish exactly one announcement — status `"ok"`
with the (fallback-coalesced) result on success, status `"error"` with
the error text when an exception escaped the loop.  The returned list is
the sequence of messages published to the bus. -/
def runSubagent (chat : List ChatMessage → Except String LLMResponse)
    (exec : String → Args → String) (workspace task label : String)
    (origin : String × String) : List InboundMessage :=
  match subLoop chat exec 15 (initialSubMessages workspace task) with
  | .ok p => [announceResult label task (p.2.getD subagentFallback) origin "ok"]
  | .error e =>
      [announceResult label task ("Error: " ++ e) origin "error"]

/-- C4: every subagent run — loop completed or exception raised — results
in exactly one published inbound message, with channel `"system"` and
sender `"subagent"`, addressed to the origin session, carrying status
`"ok"` with the task and result on success and status `"error"` with the
task and error text on failure; a subagent never finishes silently. -/
theorem subagent_always_announces
    (chat : List ChatMessage → Except String LLMResponse)
    (exec : String → Args → String) (workspace task label : String)
    (origin : String × String) :
    ∃ m, runSubagent chat exec workspace task label origin = [m] ∧
      m.channel = "system" ∧ m.senderId = "subagent" ∧
      m.chatId = origin.1 ++ ":" ++ origin.2 ∧
      ((∃ p, subLoop chat exec 15 (initialSubMessages workspace task) = .ok p ∧
          m = announceResult label task (p.2.getD subagentFallback) origin "ok") ∨
       (∃ e, subLoop chat exec 15 (initialSubMessages workspace task) = .error e ∧
          m = announceResult label task ("Error: " ++ e) origin "error")) := by
  cases hs : subLoop chat exec 15 (initialSubMessages workspace task) with
  | ok p =>
      refine ⟨announceResult label task (p.2.getD subagentFallback) origin "ok",
        ?_, rfl, rfl, rfl, Or.inl ⟨p, rfl, rfl⟩⟩
      rw [runSubagent, hs]
  | error e =>
      refine ⟨announceResult label task ("Error: " ++ e) origin "error",
        ?_, rfl, rfl, rfl, Or.inr ⟨e, rfl, rfl⟩⟩
      rw [runSubagent, hs]
